import Mathlib

/-!
# Shallow embedding of the Drop Zone storefront backend (src/main.py, src/schemas.py)

The backend is a FastAPI app over a Mongo-style document store.  We model the
three mutable collections (`otp`, `session`, `cart`) as association lists keyed
by strings, and the read-only `product` collection as a list of products (Mongo
`find_one` returns the first matching document, which association-list lookup
mirrors).  Raising `HTTPException(status, detail)` is modelled as `Except` with
an `HTTPError` payload; an operation that raises performs no store write, which
matches the source, where every `raise` happens before any write on that path.

Monetary values (`price`, the computed subtotal) are modelled as rationals;
Python's `round(x, 2)` is modelled by `round2` below (round to a multiple of
1/100).  Python `str.strip()` is modelled by `pyStrip` (drop leading and
trailing whitespace).  `str(ObjectId())` (fresh session-id generation) is
modelled by passing the generated identifier as an explicit argument.
-/

set_option autoImplicit false

namespace DropZone

/-- `schemas.SizeStock`: a size label with its non-negative stock count. -/
structure SizeStock where
  size : String
  stock : Nat
deriving DecidableEq, Repr

/-- `schemas.Product`: the catalog document schema. -/
structure Product where
  slug : String
  name : String
  description : Option String
  price : ℚ
  category : String
  accent : String
  images : List String
  sizes : List SizeStock
  is_limited : Bool
deriving DecidableEq, Repr

/-- A persisted cart line item: `{"slug": ..., "size": ..., "qty": ...}`
(main.py line 223). -/
structure LineItem where
  slug : String
  size : String
  qty : Int
deriving DecidableEq, Repr

/-- An HTTP error as raised by `HTTPException(status_code, detail)`. -/
structure HTTPError where
  status : Nat
  detail : String
deriving DecidableEq, Repr

/-- The mutable document store: carts keyed by `_id`, OTP records keyed by
phone (holding the pending code), session records keyed by session id
(holding the phone).  The `product` collection is read-only in this core and
is passed separately as a `List Product`. -/
structure Store where
  carts : List (String × List LineItem)
  otp : List (String × String)
  sessions : List (String × String)
deriving DecidableEq, Repr

/-- Mongo `find_one({key: k})` on a collection: first document whose key
matches. -/
def findDoc {α : Type} (l : List (String × α)) (k : String) : Option α :=
  (l.find? (fun kv => kv.1 == k)).map (fun kv => kv.2)

/-- Mongo `update_one({key: k}, {"$set": ...})` preceded by `insert_one` when
the document was absent: replace the value of the first matching document, or
append a fresh one. -/
def setDoc {α : Type} : List (String × α) → String → α → List (String × α)
  | [], k, v => [(k, v)]
  | (k0, v0) :: rest, k, v =>
    if k0 == k then (k, v) :: rest else (k0, v0) :: setDoc rest k v

/-- `db["product"].find_one({"slug": slug})` (main.py line 202 / 189). -/
def findBySlug (catalog : List Product) (slug : String) : Option Product :=
  (catalog.find? (fun p => p.slug == slug))

/-- Python `str.strip()`: drop leading and trailing whitespace characters. -/
def pyStrip (s : String) : String :=
  String.mk (((s.data.dropWhile Char.isWhitespace).reverse.dropWhile
    Char.isWhitespace).reverse)

/-- `request_otp` (main.py lines 56-63): trim the phone, reject a blank phone
with 400, otherwise upsert the fixed demo code `"123456"` for that phone. -/
def request_otp (st : Store) (phone : String) : Except HTTPError Store :=
  let ph := pyStrip phone
  if ph = "" then .error ⟨400, "Phone required"⟩
  else .ok { st with otp := setDoc st.otp ph "123456" }

/-- `verify_otp` (main.py lines 66-74): look the phone up exactly as supplied;
401 when no record exists or the code mismatches; on match insert one session
record for the freshly generated id `newId` and return it.  The OTP record is
not touched. -/
def verify_otp (st : Store) (phone code : String) (newId : String) :
    Except HTTPError (String × Store) :=
  match findDoc st.otp phone with
  | none => .error ⟨401, "Invalid code"⟩
  | some stored =>
    if code = stored then
      .ok (newId, { st with sessions := st.sessions ++ [(newId, phone)] })
    else .error ⟨401, "Invalid code"⟩

/-- `next((s.get("size") for s in sizes if s.get("stock", 0) > 0), None)`
(main.py line 209): the label of the first size with positive stock. -/
def pickDefaultSize (sizes : List SizeStock) : Option String :=
  (sizes.find? (fun s => decide (0 < s.stock))).map (fun s => s.size)

/-- Size resolution in `add_to_cart` (main.py lines 206-209): a falsy payload
size (`None` or `""`) is replaced by the first in-stock size. -/
def resolveSize (psize : Option String) (sizes : List SizeStock) : Option String :=
  match psize with
  | some s => if s = "" then pickDefaultSize sizes else some s
  | none => pickDefaultSize sizes

/-- The matching test `i["slug"] == payload.slug and i.get("size") == size`
used by both `add_to_cart` (line 219) and `update_cart` (line 243). -/
def sameKey (slug size : String) (i : LineItem) : Bool :=
  i.slug == slug && i.size == size

/-- Increment the quantity of the first item matching `(slug, size)` by `d`
(the in-place mutation `exists["qty"] = exists.get("qty", 1) + max(1, payload.qty)`
at main.py line 221, where `exists` aliases the first match found by `next`). -/
def incFirst (slug size : String) (d : Int) : List LineItem → List LineItem
  | [] => []
  | i :: rest =>
    if sameKey slug size i then { i with qty := i.qty + d } :: rest
    else i :: incFirst slug size d rest

/-- The item-sequence transform of `add_to_cart` (main.py lines 218-223):
if an item with the same slug and resolved size exists, bump its quantity by
`max 1 qty`; otherwise append a new item with quantity `max 1 qty`. -/
def addLine (items : List LineItem) (slug size : String) (qty : Int) :
    List LineItem :=
  match items.find? (sameKey slug size) with
  | some _ => incFirst slug size (max 1 qty) items
  | none => items ++ [⟨slug, size, max 1 qty⟩]

/-- `add_to_cart` (main.py lines 200-225): 404 when the slug does not resolve;
resolve the size, 400 ("No available size") when the resolved size is falsy;
get-or-create the cart and write back the merged item sequence. -/
def add_to_cart (catalog : List Product) (st : Store) (cart_id : String)
    (slug : String) (psize : Option String) (qty : Int) :
    Except HTTPError Store :=
  match findBySlug catalog slug with
  | none => .error ⟨404, "Product not found"⟩
  | some p =>
    match resolveSize psize p.sizes with
    | none => .error ⟨400, "No available size"⟩
    | some size =>
      if size = "" then .error ⟨400, "No available size"⟩
      else
        let items := (findDoc st.carts cart_id).getD []
        .ok { st with carts := setDoc st.carts cart_id (addLine items slug size qty) }

/-- The drop test of `update_cart` (main.py line 244):
`payload.remove or (payload.qty is not None and payload.qty <= 0)`. -/
def dropCond (qty : Option Int) (remove : Bool) : Bool :=
  remove || (match qty with | some q => decide (q ≤ 0) | none => false)

/-- The item-sequence transform of `update_cart` (main.py lines 240-248): the
Python `for` loop with `continue` for dropped items, mirrored as a direct
recursion. -/
def updateItems (slug size : String) (qty : Option Int) (remove : Bool) :
    List LineItem → List LineItem
  | [] => []
  | it :: rest =>
    if sameKey slug size it then
      if dropCond qty remove then
        updateItems slug size qty remove rest
      else
        (match qty with | some q => { it with qty := q } | none => it)
          :: updateItems slug size qty remove rest
    else it :: updateItems slug size qty remove rest

/-- `update_cart` (main.py lines 235-250): 404 when the cart is absent;
otherwise write back the filtered/updated item sequence in one step. -/
def update_cart (st : Store) (cart_id slug size : String) (qty : Option Int)
    (remove : Bool) : Except HTTPError Store :=
  match findDoc st.carts cart_id with
  | none => .error ⟨404, "Cart not found"⟩
  | some items =>
    .ok { st with carts := setDoc st.carts cart_id (updateItems slug size qty remove items) }

/-- A line item as returned by the enrichment view: the persisted fields plus
the display fields attached when the slug resolves (main.py lines 190-194). -/
structure EnrichedItem where
  slug : String
  size : String
  qty : Int
  name : Option String
  price : Option ℚ
  accent : Option String
  image : Option String
deriving DecidableEq, Repr

/-- The cart document as returned by `get_cart`: id, enriched items, and the
recomputed subtotal. -/
structure CartView where
  id : String
  items : List EnrichedItem
  subtotal : ℚ
deriving DecidableEq, Repr

/-- Python `round(x, 2)`: round to a multiple of 1/100 (modelled with
Mathlib's `round`; the float rounding-mode detail is immaterial here). -/
def round2 (q : ℚ) : ℚ := (round (100 * q) : ℤ) / 100

/-- Enrichment of one line item (main.py lines 189-194): when the slug
resolves, attach name, price, accent and the first image URL (none when the
product has no images); otherwise pass the item through untouched. -/
def enrichItem (catalog : List Product) (it : LineItem) : EnrichedItem :=
  match findBySlug catalog it.slug with
  | some p => ⟨it.slug, it.size, it.qty, some p.name, some p.price, some p.accent,
      p.images.head?⟩
  | none => ⟨it.slug, it.size, it.qty, none, none, none, none⟩

/-- One item's contribution to the running subtotal
(`item.get("qty", 1) * float(p.get("price", 0))`, main.py line 195):
zero when the slug does not resolve. -/
def itemContribution (catalog : List Product) (it : LineItem) : ℚ :=
  match findBySlug catalog it.slug with
  | some p => (it.qty : ℚ) * p.price
  | none => 0

/-- The subtotal accumulation loop of `get_cart` (main.py lines 187-195). -/
def sumContrib (catalog : List Product) (items : List LineItem) : ℚ :=
  items.foldl (fun acc it => acc + itemContribution catalog it) 0

/-- `get_cart` (main.py lines 180-197): get-or-create the cart (inserting an
empty cart document when absent — the only store write on this path), then
enrich every item against the catalog and recompute the rounded subtotal.
The enriched fields and subtotal live only in the returned view. -/
def get_cart (catalog : List Product) (st : Store) (cart_id : String) :
    CartView × Store :=
  match findDoc st.carts cart_id with
  | some items =>
    (⟨cart_id, items.map (enrichItem catalog), round2 (sumContrib catalog items)⟩, st)
  | none =>
    (⟨cart_id, [], round2 (sumContrib catalog [])⟩,
      { st with carts := st.carts ++ [(cart_id, [])] })

/-- A cart-mutating API call, for reachability statements: `addItem` or
`updateItem` with their request payloads. -/
inductive CartOp where
  | add (cart_id slug : String) (psize : Option String) (qty : Int)
  | update (cart_id slug size : String) (qty : Option Int) (remove : Bool)
deriving DecidableEq, Repr

/-- Apply one cart operation to the store; a call that raises an
`HTTPException` performs no write, so the store is unchanged. -/
def applyOp (catalog : List Product) (st : Store) : CartOp → Store
  | .add cid slug psize qty =>
    match add_to_cart catalog st cid slug psize qty with
    | .ok st1 => st1
    | .error _ => st
  | .update cid slug size qty remove =>
    match update_cart st cid slug size qty remove with
    | .ok st1 => st1
    | .error _ => st

/-- Apply a sequence of cart operations in order. -/
def applyOps (catalog : List Product) (st : Store) (ops : List CartOp) : Store :=
  ops.foldl (applyOp catalog) st

/-- The empty store: no carts, no OTP records, no sessions. -/
def emptyStore : Store := ⟨[], [], []⟩

/-- Number of documents in a collection carrying the key `k`. -/
def countDocs {α : Type} (l : List (String × α)) (k : String) : Nat :=
  (l.filter (fun kv => kv.1 == k)).length

/-- One claim-relevant call sequence: repeated `addItem` on the same cart and
slug, each call carrying its own payload size and quantity. -/
def addCalls (catalog : List Product) (st : Store) (cart_id slug : String) :
    List (Option String × Int) → Except HTTPError Store
  | [] => .ok st
  | c :: cs =>
    match add_to_cart catalog st cart_id slug c.1 c.2 with
    | .ok st1 => addCalls catalog st1 cart_id slug cs
    | .error e => .error e

/-- Spec-side description of the `updateItem` transform on one line item,
written from the specification's words ("dropped when remove is true or qty is
supplied and ≤ 0, quantity replaced by qty when qty is supplied and > 0, every
non-matching item unchanged"), to be compared with the code-derived
`updateItems`. -/
def updateSpecStep (slug size : String) (qty : Option Int) (remove : Bool)
    (it : LineItem) : Option LineItem :=
  if it.slug = slug ∧ it.size = size then
    if remove then none
    else
      match qty with
      | some q => if q ≤ 0 then none else some { it with qty := q }
      | none => some it
  else some it

/-- Spec-side description of the whole `updateItem` item-sequence transform. -/
def updateSpec (slug size : String) (qty : Option Int) (remove : Bool)
    (items : List LineItem) : List LineItem :=
  items.filterMap (updateSpecStep slug size qty remove)

/-- The cart invariant of the specification: no two line items share a
(slug, size) pair and every persisted quantity is at least 1. -/
def itemsInv (items : List LineItem) : Prop :=
  (∀ i ∈ items, 1 ≤ i.qty) ∧
    items.Pairwise (fun a b => ¬(a.slug = b.slug ∧ a.size = b.size))

/-- The store-wide cart invariant: every persisted cart satisfies `itemsInv`. -/
def storeInv (st : Store) : Prop := ∀ kv ∈ st.carts, itemsInv kv.2

/-- The state transform of one `get_cart` call. -/
def getStep (catalog : List Product) (cart_id : String) (st : Store) : Store :=
  (get_cart catalog st cart_id).2

/-- The state transform of one `update_cart` call, a raised `HTTPException`
performing no write. -/
def updateStep (st : Store) (cart_id slug size : String) (qty : Option Int)
    (remove : Bool) : Store :=
  match update_cart st cart_id slug size qty remove with
  | .ok st1 => st1
  | .error _ => st

/-- The seeded `crest-tee` product (main.py lines 131-149). -/
def crestTee : Product :=
  ⟨"crest-tee", "Crest Tee", some "Concrete grey oversized tee with neon crest.",
    55, "tees", "#00E5FF",
    ["https://img.example/1", "https://img.example/2"],
    [⟨"S", 15⟩, ⟨"M", 12⟩, ⟨"L", 6⟩, ⟨"XL", 1⟩], false⟩

/-- A catalog product whose first in-stock size carries the empty label; the
catalog is runtime data (`db["product"]`), so this is a legitimate store
content for exercising size resolution. -/
def blankSizeProduct : Product :=
  ⟨"blank-size", "Blank Size", none, 5, "tees", "#FFFFFF", [],
    [⟨"", 5⟩, ⟨"M", 3⟩], false⟩

/-- A small demo catalog. -/
def demoCatalog : List Product := [crestTee]

/-- A store holding one cart with a resolvable and an unresolvable line item,
for exercising the enrichment view. -/
def mixedStore : Store :=
  ⟨[("c1", [⟨"crest-tee", "S", 3⟩, ⟨"ghost", "M", 2⟩])], [], []⟩

/-! ## Association-list lemmas for the document store -/

theorem findDoc_nil {α : Type} (k : String) : findDoc ([] : List (String × α)) k = none := rfl

theorem findDoc_cons {α : Type} (k0 : String) (v0 : α) (rest : List (String × α))
    (k : String) :
    findDoc ((k0, v0) :: rest) k = if k0 = k then some v0 else findDoc rest k := by
  by_cases h : k0 = k
  · rw [if_pos h]
    unfold findDoc
    rw [List.find?_cons_of_pos]
    · rfl
    · simp [h]
  · rw [if_neg h]
    unfold findDoc
    rw [List.find?_cons_of_neg]
    simp [h]

theorem findDoc_setDoc_self {α : Type} (l : List (String × α)) (k : String) (v : α) :
    findDoc (setDoc l k v) k = some v := by
  induction l with
  | nil => simp [setDoc, findDoc_cons]
  | cons kv rest ih =>
    obtain ⟨k0, v0⟩ := kv
    by_cases h : k0 = k
    · simp [setDoc, h, findDoc_cons]
    · simp [setDoc, h, findDoc_cons, ih]

theorem findDoc_setDoc_ne {α : Type} (l : List (String × α)) (k k' : String) (v : α)
    (h : k ≠ k') :
    findDoc (setDoc l k v) k' = findDoc l k' := by
  induction l with
  | nil => simp [setDoc, findDoc_cons, h, findDoc_nil]
  | cons kv rest ih =>
    obtain ⟨k0, v0⟩ := kv
    by_cases h0 : k0 = k
    · subst h0
      simp [setDoc, findDoc_cons, h]
    · simp [setDoc, h0, findDoc_cons, ih]

theorem setDoc_eq_self {α : Type} (l : List (String × α)) (k : String) (v : α)
    (h : findDoc l k = some v) : setDoc l k v = l := by
  induction l with
  | nil => simp [findDoc_nil] at h
  | cons kv rest ih =>
    obtain ⟨k0, v0⟩ := kv
    rw [findDoc_cons] at h
    by_cases h0 : k0 = k
    · subst h0
      rw [if_pos rfl] at h
      injection h with h
      simp [setDoc, h]
    · rw [if_neg h0] at h
      simp [setDoc, h0, ih h]

theorem findDoc_eq_none_iff {α : Type} (l : List (String × α)) (k : String) :
    findDoc l k = none ↔ ∀ kv ∈ l, kv.1 ≠ k := by
  induction l with
  | nil => simp [findDoc_nil]
  | cons kv rest ih =>
    obtain ⟨k0, v0⟩ := kv
    rw [findDoc_cons]
    by_cases h0 : k0 = k
    · simp [h0]
    · simp [h0, ih]

theorem findDoc_append_single_self {α : Type} (l : List (String × α)) (k : String) (v : α)
    (h : findDoc l k = none) : findDoc (l ++ [(k, v)]) k = some v := by
  induction l with
  | nil => simp [findDoc_cons]
  | cons kv rest ih =>
    obtain ⟨k0, v0⟩ := kv
    rw [findDoc_cons] at h
    rw [List.cons_append, findDoc_cons]
    by_cases h0 : k0 = k
    · simp [h0] at h
    · rw [if_neg h0] at h ⊢
      exact ih h

theorem countDocs_append_single_self {α : Type} (l : List (String × α)) (k : String) (v : α) :
    countDocs (l ++ [(k, v)]) k = countDocs l k + 1 := by
  simp [countDocs, List.filter_append]

theorem countDocs_eq_zero {α : Type} (l : List (String × α)) (k : String)
    (h : findDoc l k = none) : countDocs l k = 0 := by
  rw [findDoc_eq_none_iff] at h
  simp only [countDocs, List.length_eq_zero, List.filter_eq_nil_iff]
  intro kv hm
  simpa using h kv hm

/-! ## Line-item level lemmas -/

theorem sameKey_eq_true_iff (slug size : String) (i : LineItem) :
    sameKey slug size i = true ↔ (i.slug = slug ∧ i.size = size) := by
  simp [sameKey]

theorem addLine_of_no_match (items : List LineItem) (slug size : String) (qty : Int)
    (h : ∀ i ∈ items, sameKey slug size i = false) :
    addLine items slug size qty = items ++ [⟨slug, size, max 1 qty⟩] := by
  unfold addLine
  rw [List.find?_eq_none.mpr]
  intro i hi
  simp [h i hi]

theorem incFirst_append_match (items0 : List LineItem) (slug size : String) (d v : Int)
    (h : ∀ i ∈ items0, sameKey slug size i = false) :
    incFirst slug size d (items0 ++ [⟨slug, size, v⟩]) =
      items0 ++ [⟨slug, size, v + d⟩] := by
  induction items0 with
  | nil => simp [incFirst, sameKey]
  | cons i rest ih =>
    have hi : sameKey slug size i = false := h i (List.mem_cons_self i rest)
    simp only [List.cons_append, incFirst, hi, Bool.false_eq_true, if_false]
    exact congrArg (fun l => i :: l) (ih (fun j hj => h j (List.mem_cons_of_mem i hj)))

theorem find?_append_single_match (items0 : List LineItem) (slug size : String) (v : Int)
    (h : ∀ i ∈ items0, sameKey slug size i = false) :
    (items0 ++ [(⟨slug, size, v⟩ : LineItem)]).find? (sameKey slug size) =
      some ⟨slug, size, v⟩ := by
  induction items0 with
  | nil => simp [List.find?, sameKey]
  | cons i rest ih =>
    have hi : sameKey slug size i = false := h i (List.mem_cons_self i rest)
    rw [List.cons_append, List.find?_cons_of_neg _ (by simp [hi])]
    exact ih (fun j hj => h j (List.mem_cons_of_mem i hj))

theorem addLine_append_match (items0 : List LineItem) (slug size : String) (v q : Int)
    (h : ∀ i ∈ items0, sameKey slug size i = false) :
    addLine (items0 ++ [⟨slug, size, v⟩]) slug size q =
      items0 ++ [⟨slug, size, v + max 1 q⟩] := by
  unfold addLine
  rw [find?_append_single_match items0 slug size v h]
  exact incFirst_append_match items0 slug size (max 1 q) v h

/-- Successful `add_to_cart`, rewritten as the store transform it performs. -/
theorem add_to_cart_ok (catalog : List Product) (st : Store) (cart_id slug : String)
    (psize : Option String) (qty : Int) (p : Product) (sz : String)
    (hp : findBySlug catalog slug = some p)
    (hsz : resolveSize psize p.sizes = some sz) (hne : sz ≠ "") :
    add_to_cart catalog st cart_id slug psize qty =
      .ok { st with
        carts := setDoc st.carts cart_id
          (addLine ((findDoc st.carts cart_id).getD []) slug sz qty) } := by
  unfold add_to_cart
  rw [hp]
  simp [hsz, hne]

theorem addCalls_acc (catalog : List Product) (cart_id slug sz : String) (p : Product)
    (hp : findBySlug catalog slug = some p) (hne : sz ≠ "")
    (cs : List (Option String × Int))
    (hres : ∀ c ∈ cs, resolveSize c.1 p.sizes = some sz) :
    ∀ (st : Store) (items0 : List LineItem) (v : Int),
      (∀ i ∈ items0, sameKey slug sz i = false) →
      findDoc st.carts cart_id = some (items0 ++ [⟨slug, sz, v⟩]) →
      ∃ st1, addCalls catalog st cart_id slug cs = .ok st1 ∧
        findDoc st1.carts cart_id =
          some (items0 ++ [⟨slug, sz, v + (cs.map (fun c => max 1 c.2)).sum⟩]) := by
  induction cs with
  | nil =>
    intro st items0 v h0 hfind
    exact ⟨st, rfl, by simpa using hfind⟩
  | cons c rest ih =>
    intro st items0 v h0 hfind
    rw [addCalls, add_to_cart_ok catalog st cart_id slug c.1 c.2 p sz hp
      (hres c (List.mem_cons_self c rest)) hne]
    have hstep : addLine ((findDoc st.carts cart_id).getD []) slug sz c.2 =
        items0 ++ [⟨slug, sz, v + max 1 c.2⟩] := by
      rw [hfind]
      exact addLine_append_match items0 slug sz v c.2 h0
    simp only [hstep]
    obtain ⟨st1, hrun, hfind1⟩ := ih (fun d hd => hres d (List.mem_cons_of_mem c hd))
      { st with carts := setDoc st.carts cart_id (items0 ++ [⟨slug, sz, v + max 1 c.2⟩]) }
      items0 (v + max 1 c.2) h0 (findDoc_setDoc_self st.carts cart_id _)
    refine ⟨st1, hrun, ?_⟩
    rw [hfind1]
    simp only [List.map_cons, List.sum_cons]
    rw [add_assoc]

/-- C1: any sequence of `addItem` calls on the same cart with the same slug
and the same resolved size leaves the cart with exactly one line item for that
(slug, size) pair, appended by the first call and incremented in place by every
later one, so its quantity is the sum over the calls of `max 1 qty`. -/
theorem add_item_merges_same_key (catalog : List Product) (st : Store)
    (cart_id slug sz : String) (p : Product) (calls : List (Option String × Int))
    (hp : findBySlug catalog slug = some p)
    (hres : ∀ c ∈ calls, resolveSize c.1 p.sizes = some sz)
    (hne : sz ≠ "")
    (h0 : ∀ i ∈ (findDoc st.carts cart_id).getD [], sameKey slug sz i = false)
    (hcalls : calls ≠ []) :
    ∃ st1, addCalls catalog st cart_id slug calls = .ok st1 ∧
      ∃ items1, findDoc st1.carts cart_id = some items1 ∧
        items1 = ((findDoc st.carts cart_id).getD []) ++
          [⟨slug, sz, (calls.map (fun c => max 1 c.2)).sum⟩] ∧
        items1.filter (sameKey slug sz) =
          [⟨slug, sz, (calls.map (fun c => max 1 c.2)).sum⟩] := by
  cases calls with
  | nil => exact absurd rfl hcalls
  | cons c cs =>
    rw [addCalls, add_to_cart_ok catalog st cart_id slug c.1 c.2 p sz hp
      (hres c (List.mem_cons_self c cs)) hne]
    have hstep : addLine ((findDoc st.carts cart_id).getD []) slug sz c.2 =
        ((findDoc st.carts cart_id).getD []) ++ [⟨slug, sz, max 1 c.2⟩] :=
      addLine_of_no_match _ slug sz c.2 h0
    simp only [hstep]
    obtain ⟨st1, hrun, hfind⟩ := addCalls_acc catalog cart_id slug sz p hp hne cs
      (fun d hd => hres d (List.mem_cons_of_mem c hd))
      { st with carts :=
          setDoc st.carts cart_id (((findDoc st.carts cart_id).getD []) ++ [⟨slug, sz, max 1 c.2⟩]) }
      ((findDoc st.carts cart_id).getD []) (max 1 c.2) h0
      (findDoc_setDoc_self st.carts cart_id _)
    refine ⟨st1, hrun, _, hfind, ?_, ?_⟩
    · simp [List.map_cons, List.sum_cons]
    · rw [List.filter_append]
      have hnil : ((findDoc st.carts cart_id).getD []).filter (sameKey slug sz) = [] :=
        List.filter_eq_nil_iff.mpr (fun i hi => by simp [h0 i hi])
      rw [hnil]
      simp [sameKey]

/-- Witness for C1: the spec's own scenario — an omitted-size add (resolving
to S) followed by an explicit `size="S", qty=2` add yields the single line
item (crest-tee, S, 3). -/
theorem add_item_merges_same_key_witness :
    ∃ st1, addCalls demoCatalog emptyStore "c1" "crest-tee"
        [(none, 1), (some "S", 2)] = .ok st1 ∧
      ∃ items1, findDoc st1.carts "c1" = some items1 ∧
        items1 = [⟨"crest-tee", "S", 3⟩] ∧
        items1.filter (sameKey "crest-tee" "S") = [⟨"crest-tee", "S", 3⟩] := by
  obtain ⟨st1, hrun, items1, hfind, heq, hfilter⟩ :=
    add_item_merges_same_key demoCatalog emptyStore "c1" "crest-tee" "S" crestTee
      [(none, 1), (some "S", 2)] (by rfl) (by decide) (by decide) (by decide)
      (by decide)
  refine ⟨st1, hrun, items1, hfind, ?_, ?_⟩
  · rw [heq]; rfl
  · rw [hfilter]; rfl

/-! ## Invariant lemmas (claim C2) -/

theorem mem_incFirst_keys (slug sz : String) (d : Int) (items : List LineItem)
    (b : LineItem) (hb : b ∈ incFirst slug sz d items) :
    ∃ b0 ∈ items, b0.slug = b.slug ∧ b0.size = b.size := by
  induction items with
  | nil => simp [incFirst] at hb
  | cons i rest ih =>
    unfold incFirst at hb
    by_cases hk : sameKey slug sz i = true
    · rw [if_pos hk] at hb
      rcases List.mem_cons.mp hb with hb | hb
      · exact ⟨i, List.mem_cons_self i rest, by rw [hb]; exact ⟨rfl, rfl⟩⟩
      · exact ⟨b, List.mem_cons_of_mem i hb, rfl, rfl⟩
    · rw [if_neg hk] at hb
      rcases List.mem_cons.mp hb with hb | hb
      · exact ⟨i, List.mem_cons_self i rest, by rw [hb]; exact ⟨rfl, rfl⟩⟩
      · obtain ⟨b0, hm, hkeys⟩ := ih hb
        exact ⟨b0, List.mem_cons_of_mem i hm, hkeys⟩

theorem mem_updateItems_keys (slug sz : String) (qty : Option Int) (remove : Bool)
    (items : List LineItem) (b : LineItem)
    (hb : b ∈ updateItems slug sz qty remove items) :
    ∃ b0 ∈ items, b0.slug = b.slug ∧ b0.size = b.size := by
  induction items with
  | nil => simp [updateItems] at hb
  | cons i rest ih =>
    unfold updateItems at hb
    by_cases hk : sameKey slug sz i = true
    · rw [if_pos hk] at hb
      by_cases hdrop : dropCond qty remove = true
      · rw [if_pos hdrop] at hb
        obtain ⟨b0, hm, hkeys⟩ := ih hb
        exact ⟨b0, List.mem_cons_of_mem i hm, hkeys⟩
      · rw [if_neg hdrop] at hb
        rcases List.mem_cons.mp hb with hb | hb
        · refine ⟨i, List.mem_cons_self i rest, ?_⟩
          cases qty with
          | some q => rw [hb]; exact ⟨rfl, rfl⟩
          | none => rw [hb]; exact ⟨rfl, rfl⟩
        · obtain ⟨b0, hm, hkeys⟩ := ih hb
          exact ⟨b0, List.mem_cons_of_mem i hm, hkeys⟩
    · rw [if_neg hk] at hb
      rcases List.mem_cons.mp hb with hb | hb
      · exact ⟨i, List.mem_cons_self i rest, by rw [hb]; exact ⟨rfl, rfl⟩⟩
      · obtain ⟨b0, hm, hkeys⟩ := ih hb
        exact ⟨b0, List.mem_cons_of_mem i hm, hkeys⟩

theorem itemsInv_incFirst (slug sz : String) (d : Int) (items : List LineItem)
    (hd : 1 ≤ d) (h : itemsInv items) : itemsInv (incFirst slug sz d items) := by
  induction items with
  | nil => exact h
  | cons i rest ih =>
    obtain ⟨hq, hpw⟩ := h
    rw [List.pairwise_cons] at hpw
    unfold incFirst
    by_cases hk : sameKey slug sz i = true
    · rw [if_pos hk]
      constructor
      · intro j hj
        rcases List.mem_cons.mp hj with hj | hj
        · rw [hj]
          have : 1 ≤ i.qty := hq i (List.mem_cons_self i rest)
          simp only []
          omega
        · exact hq j (List.mem_cons_of_mem i hj)
      · rw [List.pairwise_cons]
        exact ⟨fun b hb => hpw.1 b hb, hpw.2⟩
    · rw [if_neg hk]
      have hrest : itemsInv rest :=
        ⟨fun j hj => hq j (List.mem_cons_of_mem i hj), hpw.2⟩
      obtain ⟨hq', hpw'⟩ := ih hrest
      refine ⟨?_, ?_⟩
      · intro j hj
        rcases List.mem_cons.mp hj with hj | hj
        · rw [hj]; exact hq i (List.mem_cons_self i rest)
        · exact hq' j hj
      · rw [List.pairwise_cons]
        refine ⟨?_, hpw'⟩
        intro b hb
        obtain ⟨b0, hm, hs, hz⟩ := mem_incFirst_keys slug sz d rest b hb
        intro hcon
        exact hpw.1 b0 hm ⟨hcon.1.trans hs.symm, hcon.2.trans hz.symm⟩

theorem itemsInv_addLine (items : List LineItem) (slug sz : String) (qty : Int)
    (h : itemsInv items) : itemsInv (addLine items slug sz qty) := by
  unfold addLine
  cases hfind : items.find? (sameKey slug sz) with
  | some i => exact itemsInv_incFirst slug sz (max 1 qty) items (le_max_left 1 qty) h
  | none =>
    have hno : ∀ i ∈ items, ¬ sameKey slug sz i = true := List.find?_eq_none.mp hfind
    obtain ⟨hq, hpw⟩ := h
    refine ⟨?_, ?_⟩
    · intro j hj
      rcases List.mem_append.mp hj with hj | hj
      · exact hq j hj
      · rw [List.mem_singleton.mp hj]
        exact le_max_left 1 qty
    · rw [List.pairwise_append]
      refine ⟨hpw, List.pairwise_singleton _ _, ?_⟩
      intro a ha b hb
      rw [List.mem_singleton.mp hb]
      intro hcon
      exact hno a ha (by simp [sameKey, hcon.1, hcon.2])

theorem itemsInv_updateItems (slug sz : String) (qty : Option Int) (remove : Bool)
    (items : List LineItem) (h : itemsInv items) :
    itemsInv (updateItems slug sz qty remove items) := by
  induction items with
  | nil => exact h
  | cons i rest ih =>
    obtain ⟨hq, hpw⟩ := h
    rw [List.pairwise_cons] at hpw
    have hrest : itemsInv rest :=
      ⟨fun j hj => hq j (List.mem_cons_of_mem i hj), hpw.2⟩
    obtain ⟨hq', hpw'⟩ := ih hrest
    have hcons : ∀ (j : LineItem), j.slug = i.slug → j.size = i.size → 1 ≤ j.qty →
        itemsInv (j :: updateItems slug sz qty remove rest) := by
      intro j hs hz hjq
      refine ⟨?_, ?_⟩
      · intro b hb
        rcases List.mem_cons.mp hb with hb | hb
        · rw [hb]; exact hjq
        · exact hq' b hb
      · rw [List.pairwise_cons]
        refine ⟨?_, hpw'⟩
        intro b hb
        obtain ⟨b0, hm, hbs, hbz⟩ := mem_updateItems_keys slug sz qty remove rest b hb
        intro hcon
        exact hpw.1 b0 hm ⟨(hs.symm.trans hcon.1).trans hbs.symm,
          (hz.symm.trans hcon.2).trans hbz.symm⟩
    unfold updateItems
    by_cases hk : sameKey slug sz i = true
    · rw [if_pos hk]
      by_cases hdrop : dropCond qty remove = true
      · rw [if_pos hdrop]
        exact ⟨hq', hpw'⟩
      · rw [if_neg hdrop]
        cases hqty : qty with
        | some q =>
          rw [hqty] at hcons
          have hqpos : 1 ≤ q := by
            rw [hqty] at hdrop
            simp only [dropCond, Bool.or_eq_true, decide_eq_true_eq] at hdrop
            push_neg at hdrop
            omega
          exact hcons { i with qty := q } rfl rfl hqpos
        | none =>
          rw [hqty] at hcons
          exact hcons i rfl rfl (hq i (List.mem_cons_self i rest))
    · rw [if_neg hk]
      exact hcons i rfl rfl (hq i (List.mem_cons_self i rest))

theorem findDoc_mem {α : Type} (l : List (String × α)) (k : String) (v : α)
    (h : findDoc l k = some v) : (k, v) ∈ l := by
  unfold findDoc at h
  cases hf : l.find? (fun kv => kv.1 == k) with
  | none => rw [hf] at h; cases h
  | some kv =>
    rw [hf] at h
    have hm := List.mem_of_find?_eq_some hf
    have hp := List.find?_some hf
    have hk : kv.1 = k := by simpa using hp
    have hv : kv.2 = v := by simpa using h
    obtain ⟨a, b⟩ := kv
    simp only at hk hv
    rw [hk, hv] at hm
    exact hm

theorem mem_setDoc {α : Type} (l : List (String × α)) (k : String) (v : α)
    (kv : String × α) (h : kv ∈ setDoc l k v) : kv ∈ l ∨ kv = (k, v) := by
  induction l with
  | nil =>
    rw [show setDoc ([] : List (String × α)) k v = [(k, v)] from rfl] at h
    exact Or.inr (List.mem_singleton.mp h)
  | cons kv0 rest ih =>
    obtain ⟨k0, v0⟩ := kv0
    unfold setDoc at h
    by_cases h0 : (k0 == k) = true
    · rw [if_pos h0] at h
      rcases List.mem_cons.mp h with h | h
      · exact Or.inr h
      · exact Or.inl (List.mem_cons_of_mem _ h)
    · rw [if_neg h0] at h
      rcases List.mem_cons.mp h with h | h
      · exact Or.inl (h ▸ List.mem_cons_self _ _)
      · rcases ih h with h | h
        · exact Or.inl (List.mem_cons_of_mem _ h)
        · exact Or.inr h

/-- Inversion of a successful `add_to_cart`: the store change is exactly the
write-back of the merged item sequence. -/
theorem add_to_cart_ok_inv (catalog : List Product) (st : Store)
    (cart_id slug : String) (psize : Option String) (qty : Int) (st1 : Store)
    (h : add_to_cart catalog st cart_id slug psize qty = .ok st1) :
    ∃ sz, st1 = { st with
      carts := setDoc st.carts cart_id
        (addLine ((findDoc st.carts cart_id).getD []) slug sz qty) } := by
  unfold add_to_cart at h
  cases hfp : findBySlug catalog slug with
  | none =>
    simp only [hfp] at h
    exact Except.noConfusion h
  | some p =>
    simp only [hfp] at h
    cases hrs : resolveSize psize p.sizes with
    | none =>
      simp only [hrs] at h
      exact Except.noConfusion h
    | some sz =>
      simp only [hrs] at h
      by_cases hsz : sz = ""
      · rw [if_pos hsz] at h; cases h
      · rw [if_neg hsz] at h
        simp only [Except.ok.injEq] at h
        exact ⟨sz, h.symm⟩

/-- Inversion of a successful `update_cart`: the cart existed and the store
change is exactly the write-back of the filtered item sequence. -/
theorem update_cart_ok_inv (st : Store) (cart_id slug size : String)
    (qty : Option Int) (remove : Bool) (st1 : Store)
    (h : update_cart st cart_id slug size qty remove = .ok st1) :
    ∃ items, findDoc st.carts cart_id = some items ∧
      st1 = { st with
        carts := setDoc st.carts cart_id (updateItems slug size qty remove items) } := by
  unfold update_cart at h
  cases hf : findDoc st.carts cart_id with
  | none => rw [hf] at h; cases h
  | some items =>
    rw [hf] at h
    simp only [Except.ok.injEq] at h
    exact ⟨items, rfl, h.symm⟩

theorem storeInv_current_items (st : Store) (cart_id : String) (h : storeInv st) :
    itemsInv ((findDoc st.carts cart_id).getD []) := by
  cases hf : findDoc st.carts cart_id with
  | none => exact ⟨fun i hi => absurd hi (List.not_mem_nil i), List.Pairwise.nil⟩
  | some items => exact h (cart_id, items) (findDoc_mem st.carts cart_id items hf)

theorem storeInv_setDoc (st : Store) (cart_id : String) (items : List LineItem)
    (h : storeInv st) (hitems : itemsInv items) :
    storeInv { st with carts := setDoc st.carts cart_id items } := by
  intro kv hkv
  rcases mem_setDoc st.carts cart_id items kv hkv with hm | he
  · exact h kv hm
  · rw [he]; exact hitems

theorem storeInv_applyOp (catalog : List Product) (st : Store) (op : CartOp)
    (h : storeInv st) : storeInv (applyOp catalog st op) := by
  cases op with
  | add cid slug psize qty =>
    simp only [applyOp]
    cases hadd : add_to_cart catalog st cid slug psize qty with
    | error e => exact h
    | ok st1 =>
      obtain ⟨sz, hst1⟩ := add_to_cart_ok_inv catalog st cid slug psize qty st1 hadd
      rw [hst1]
      exact storeInv_setDoc st cid _ h
        (itemsInv_addLine _ slug sz qty (storeInv_current_items st cid h))
  | update cid slug size qty remove =>
    simp only [applyOp]
    cases hupd : update_cart st cid slug size qty remove with
    | error e => exact h
    | ok st1 =>
      obtain ⟨items, hfind, hst1⟩ :=
        update_cart_ok_inv st cid slug size qty remove st1 hupd
      rw [hst1]
      have : itemsInv items := h (cid, items) (findDoc_mem st.carts cid items hfind)
      exact storeInv_setDoc st cid _ h (itemsInv_updateItems slug size qty remove items this)

theorem storeInv_applyOps (catalog : List Product) (st : Store) (ops : List CartOp)
    (h : storeInv st) : storeInv (applyOps catalog st ops) := by
  induction ops generalizing st with
  | nil => exact h
  | cons op rest ih => exact ih (applyOp catalog st op) (storeInv_applyOp catalog st op h)

/-- C2: every store reachable from the empty store by any sequence of
`addItem` / `updateItem` calls satisfies the cart invariant — in every
persisted cart no two line items share a (slug, size) pair and every
persisted quantity is at least 1. -/
theorem cart_invariant_reachable (catalog : List Product) (ops : List CartOp) :
    storeInv (applyOps catalog emptyStore ops) := by
  apply storeInv_applyOps
  intro kv hkv
  exact absurd hkv (List.not_mem_nil kv)

/-! ## Default-size resolution (claim C3) -/

theorem pickDefaultSize_first_in_stock (pre suf : List SizeStock) (s : SizeStock)
    (hpre : ∀ t ∈ pre, t.stock = 0) (hs : 0 < s.stock) :
    pickDefaultSize (pre ++ s :: suf) = some s.size := by
  induction pre with
  | nil =>
    unfold pickDefaultSize
    rw [List.nil_append, List.find?_cons_of_pos _ (by simpa using hs)]
    rfl
  | cons t rest ih =>
    have ht : t.stock = 0 := hpre t (List.mem_cons_self t rest)
    unfold pickDefaultSize
    rw [List.cons_append, List.find?_cons_of_neg _ (by simp [ht])]
    exact ih (fun u hu => hpre u (List.mem_cons_of_mem t hu))

theorem pickDefaultSize_all_out_of_stock (sizes : List SizeStock)
    (h : ∀ t ∈ sizes, t.stock = 0) : pickDefaultSize sizes = none := by
  unfold pickDefaultSize
  rw [List.find?_eq_none.mpr]
  · rfl
  · intro t ht
    simp [h t ht]

/-- Counterexample to C3 as stated: a product that declares a size with
positive stock (so, per the claim, the omitted-size `addItem` should select
its first in-stock size and not fail), yet the call fails with
`InvalidState` ("No available size") and writes nothing, because the first
in-stock size carries the empty-string label, which the code's truthiness
test conflates with "no size found". -/
theorem default_size_blank_label_counterexample :
    (∃ s ∈ blankSizeProduct.sizes, 0 < s.stock) ∧
    findBySlug [blankSizeProduct] "blank-size" = some blankSizeProduct ∧
    add_to_cart [blankSizeProduct] emptyStore "c1" "blank-size" none 1 =
      .error ⟨400, "No available size"⟩ ∧
    applyOp [blankSizeProduct] emptyStore (CartOp.add "c1" "blank-size" none 1) =
      emptyStore := by
  refine ⟨⟨⟨"", 5⟩, by decide, by decide⟩, by rfl, by rfl, by rfl⟩

/-- C3 (amended): with the size omitted, `addItem` resolves the size to
`pickDefaultSize`, the first size in declared order with positive stock
(second and third conjuncts), and then succeeds with that size exactly when
its label is non-empty; it fails with `InvalidState` ("No available size"),
writing nothing, when the product declares no in-stock size or the first
in-stock size has an empty label (first conjunct). -/
theorem add_item_default_size (catalog : List Product) (st : Store)
    (cart_id slug : String) (qty : Int) (p : Product)
    (hp : findBySlug catalog slug = some p) :
    (add_to_cart catalog st cart_id slug none qty =
      match pickDefaultSize p.sizes with
      | some sz =>
        if sz = "" then .error ⟨400, "No available size"⟩
        else .ok { st with
          carts := setDoc st.carts cart_id
            (addLine ((findDoc st.carts cart_id).getD []) slug sz qty) }
      | none => .error ⟨400, "No available size"⟩) ∧
    (∀ pre suf (s : SizeStock), p.sizes = pre ++ s :: suf →
      (∀ t ∈ pre, t.stock = 0) → 0 < s.stock →
      pickDefaultSize p.sizes = some s.size) ∧
    ((∀ t ∈ p.sizes, t.stock = 0) → pickDefaultSize p.sizes = none) := by
  refine ⟨?_, ?_, pickDefaultSize_all_out_of_stock p.sizes⟩
  · unfold add_to_cart
    rw [hp]
    show (match resolveSize none p.sizes with
      | none => Except.error (HTTPError.mk 400 "No available size")
      | some size =>
        if size = "" then Except.error (HTTPError.mk 400 "No available size")
        else
          let items := (findDoc st.carts cart_id).getD []
          Except.ok { st with carts := setDoc st.carts cart_id (addLine items slug size qty) }) = _
    unfold resolveSize
    cases pickDefaultSize p.sizes with
    | none => rfl
    | some sz => rfl
  · intro pre suf s hdec hpre hs
    rw [hdec]
    exact pickDefaultSize_first_in_stock pre suf s hpre hs

/-- Witness for C3 (amended), at the seeded crest-tee product: all three
conjuncts instantiated at a concrete catalog and store. -/
theorem add_item_default_size_witness :
    (add_to_cart demoCatalog emptyStore "c1" "crest-tee" none 1 =
      match pickDefaultSize crestTee.sizes with
      | some sz =>
        if sz = "" then .error ⟨400, "No available size"⟩
        else .ok { emptyStore with
          carts := setDoc emptyStore.carts "c1"
            (addLine ((findDoc emptyStore.carts "c1").getD []) "crest-tee" sz 1) }
      | none => .error ⟨400, "No available size"⟩) ∧
    (∀ pre suf (s : SizeStock), crestTee.sizes = pre ++ s :: suf →
      (∀ t ∈ pre, t.stock = 0) → 0 < s.stock →
      pickDefaultSize crestTee.sizes = some s.size) ∧
    ((∀ t ∈ crestTee.sizes, t.stock = 0) → pickDefaultSize crestTee.sizes = none) :=
  add_item_default_size demoCatalog emptyStore "c1" "crest-tee" 1 crestTee (by rfl)

/-! ## Enrichment view and subtotal (claim C4) -/

theorem foldl_add_contrib (f : LineItem → ℚ) (items : List LineItem) (a : ℚ) :
    items.foldl (fun acc it => acc + f it) a = a + (items.map f).sum := by
  induction items generalizing a with
  | nil => simp
  | cons i rest ih => simp [ih, add_assoc]

theorem map_contrib_eq_filtered (catalog : List Product) (items : List LineItem) :
    (items.map (itemContribution catalog)).sum =
      ((items.filter (fun it => (findBySlug catalog it.slug).isSome)).map
        (fun it => (it.qty : ℚ) *
          (((findBySlug catalog it.slug).map Product.price).getD 0))).sum := by
  induction items with
  | nil => rfl
  | cons i rest ih =>
    cases hf : findBySlug catalog i.slug with
    | none => simp [itemContribution, hf, ih, List.filter_cons]
    | some p => simp [itemContribution, hf, ih, List.filter_cons]

/-- C4: for an existing cart, the view's subtotal is the 2-decimal rounding of
the sum, over exactly the line items whose slug resolves in the catalog, of
quantity times current catalog price; every item is returned (the view's item
list is the enrichment of the persisted one, never an error), and an
unresolvable item is passed through with no enrichment fields attached. -/
theorem get_cart_subtotal_enrichment (catalog : List Product) (st : Store)
    (cart_id : String) (items : List LineItem)
    (h : findDoc st.carts cart_id = some items) :
    (get_cart catalog st cart_id).1.subtotal =
      round2 (((items.filter (fun it => (findBySlug catalog it.slug).isSome)).map
        (fun it => (it.qty : ℚ) *
          (((findBySlug catalog it.slug).map Product.price).getD 0))).sum) ∧
    (get_cart catalog st cart_id).1.items = items.map (enrichItem catalog) ∧
    ∀ it : LineItem, findBySlug catalog it.slug = none →
      enrichItem catalog it = ⟨it.slug, it.size, it.qty, none, none, none, none⟩ := by
  refine ⟨?_, ?_, ?_⟩
  · unfold get_cart
    rw [h]
    show round2 (sumContrib catalog items) = _
    rw [show sumContrib catalog items = (items.map (itemContribution catalog)).sum by
      unfold sumContrib; rw [foldl_add_contrib, zero_add]]
    rw [map_contrib_eq_filtered]
  · unfold get_cart
    rw [h]
  · intro it hit
    unfold enrichItem
    rw [hit]

/-- Witness for C4: a cart with a resolvable item (crest-tee, S, qty 3) and an
unresolvable one (ghost, M, qty 2) against the demo catalog. -/
theorem get_cart_subtotal_enrichment_witness :
    (get_cart demoCatalog mixedStore "c1").1.subtotal =
      round2 ((([⟨"crest-tee", "S", 3⟩,
          (⟨"ghost", "M", 2⟩ : LineItem)].filter
            (fun it => (findBySlug demoCatalog it.slug).isSome)).map
        (fun it => (it.qty : ℚ) *
          (((findBySlug demoCatalog it.slug).map Product.price).getD 0))).sum) ∧
    (get_cart demoCatalog mixedStore "c1").1.items =
      [⟨"crest-tee", "S", 3⟩, (⟨"ghost", "M", 2⟩ : LineItem)].map
        (enrichItem demoCatalog) ∧
    ∀ it : LineItem, findBySlug demoCatalog it.slug = none →
      enrichItem demoCatalog it = ⟨it.slug, it.size, it.qty, none, none, none, none⟩ :=
  get_cart_subtotal_enrichment demoCatalog mixedStore "c1"
    [⟨"crest-tee", "S", 3⟩, ⟨"ghost", "M", 2⟩] (by rfl)

/-! ## Update semantics (claim C5) -/

theorem updateItems_eq_updateSpec (slug sz : String) (qty : Option Int)
    (remove : Bool) (items : List LineItem) :
    updateItems slug sz qty remove items = updateSpec slug sz qty remove items := by
  induction items with
  | nil => rfl
  | cons i rest ih =>
    by_cases hk : sameKey slug sz i = true
    · have hkey := (sameKey_eq_true_iff slug sz i).mp hk
      cases remove with
      | true =>
        simp [updateItems, updateSpec, updateSpecStep, List.filterMap_cons, hk,
          hkey.1, hkey.2, dropCond, ih]
      | false =>
        cases qty with
        | none =>
          simp [updateItems, updateSpec, updateSpecStep, List.filterMap_cons, hk,
            hkey.1, hkey.2, dropCond, ih]
        | some q =>
          by_cases hq : q ≤ 0
          · simp [updateItems, updateSpec, updateSpecStep, List.filterMap_cons, hk,
              hkey.1, hkey.2, dropCond, hq, ih]
          · simp [updateItems, updateSpec, updateSpecStep, List.filterMap_cons, hk,
              hkey.1, hkey.2, dropCond, hq, ih]
    · have hkey : ¬(i.slug = slug ∧ i.size = sz) :=
        fun hc => hk ((sameKey_eq_true_iff slug sz i).mpr hc)
      simp [updateItems, updateSpec, updateSpecStep, List.filterMap_cons, hk, hkey, ih]

theorem updateSpec_qty_zero (slug sz : String) (remove : Bool)
    (items : List LineItem) :
    updateSpec slug sz (some 0) remove items =
      items.filter (fun it => !(sameKey slug sz it)) := by
  induction items with
  | nil => rfl
  | cons i rest ih =>
    unfold updateSpec at ih
    by_cases hk : sameKey slug sz i = true
    · have hkey := (sameKey_eq_true_iff slug sz i).mp hk
      cases remove with
      | true =>
        simp [updateSpec, updateSpecStep, List.filterMap_cons, List.filter_cons,
          hk, hkey.1, hkey.2, ih]
      | false =>
        simp [updateSpec, updateSpecStep, List.filterMap_cons, List.filter_cons,
          hk, hkey.1, hkey.2, ih]
    · have hkey : ¬(i.slug = slug ∧ i.size = sz) :=
        fun hc => hk ((sameKey_eq_true_iff slug sz i).mpr hc)
      simp [updateSpec, updateSpecStep, List.filterMap_cons, List.filter_cons,
        hk, hkey, ih]

/-- C5: on an existing cart, `updateItem` writes back exactly the sequence in
which each (slug, size)-matching item is dropped when `remove` is set or the
supplied quantity is ≤ 0 and has its quantity replaced when a positive
quantity is supplied (`updateSpec`, the specification's transform, applied by
`filterMap` so all non-matching items pass through unchanged in order); in
particular `qty = 0` removes every matching line item entirely. -/
theorem update_item_replace_drop (st : Store) (cart_id slug sz : String)
    (qty : Option Int) (remove : Bool) (items : List LineItem)
    (h : findDoc st.carts cart_id = some items) :
    update_cart st cart_id slug sz qty remove = .ok { st with
      carts := setDoc st.carts cart_id (updateSpec slug sz qty remove items) } ∧
    (∀ it : LineItem, ¬(it.slug = slug ∧ it.size = sz) →
      updateSpecStep slug sz qty remove it = some it) ∧
    updateSpec slug sz (some 0) remove items =
      items.filter (fun it => !(sameKey slug sz it)) := by
  refine ⟨?_, ?_, updateSpec_qty_zero slug sz remove items⟩
  · simp only [update_cart, h]
    rw [updateItems_eq_updateSpec]
  · intro it hit
    unfold updateSpecStep
    rw [if_neg hit]

/-- Witness for C5: the spec's own scenario —
`updateItem(cart="c1", slug="crest-tee", size="S", qty=0)` on a cart holding
(crest-tee, S) and (ghost, M). -/
theorem update_item_replace_drop_witness :
    update_cart mixedStore "c1" "crest-tee" "S" (some 0) false =
      .ok { mixedStore with
        carts := setDoc mixedStore.carts "c1"
          (updateSpec "crest-tee" "S" (some 0) false
            [⟨"crest-tee", "S", 3⟩, ⟨"ghost", "M", 2⟩]) } ∧
    (∀ it : LineItem, ¬(it.slug = "crest-tee" ∧ it.size = "S") →
      updateSpecStep "crest-tee" "S" (some 0) false it = some it) ∧
    updateSpec "crest-tee" "S" (some 0) false
        [⟨"crest-tee", "S", 3⟩, ⟨"ghost", "M", 2⟩] =
      [⟨"crest-tee", "S", 3⟩, (⟨"ghost", "M", 2⟩ : LineItem)].filter
        (fun it => !(sameKey "crest-tee" "S" it)) :=
  update_item_replace_drop mixedStore "c1" "crest-tee" "S" (some 0) false
    [⟨"crest-tee", "S", 3⟩, ⟨"ghost", "M", 2⟩] (by rfl)

/-! ## Get-or-create (claim C6) -/

/-- C6: fetching an unseen cart identity does not fail (the operation is a
total function), persists an empty cart and returns the empty view; the store
then holds exactly one cart record for that identity, any number of further
fetches leave the store fixed, and each returns the same view. -/
theorem get_or_create_fresh (catalog : List Product) (st : Store) (cart_id : String)
    (h : findDoc st.carts cart_id = none) :
    (get_cart catalog st cart_id).1.items = [] ∧
    findDoc (get_cart catalog st cart_id).2.carts cart_id = some [] ∧
    countDocs (get_cart catalog st cart_id).2.carts cart_id = 1 ∧
    (∀ n : Nat, (getStep catalog cart_id)^[n] (get_cart catalog st cart_id).2 =
      (get_cart catalog st cart_id).2) ∧
    (get_cart catalog (get_cart catalog st cart_id).2 cart_id).1 =
      (get_cart catalog st cart_id).1 := by
  have hres : get_cart catalog st cart_id =
      (⟨cart_id, [], round2 (sumContrib catalog [])⟩,
        { st with carts := st.carts ++ [(cart_id, [])] }) := by
    simp only [get_cart, h]
  have hfind1 : findDoc (st.carts ++ [(cart_id, [])]) cart_id = some [] :=
    findDoc_append_single_self st.carts cart_id [] h
  have hsecond : get_cart catalog { st with carts := st.carts ++ [(cart_id, [])] } cart_id =
      (⟨cart_id, [], round2 (sumContrib catalog [])⟩,
        { st with carts := st.carts ++ [(cart_id, [])] }) := by
    simp only [get_cart, hfind1]
    rfl
  refine ⟨by rw [hres], by rw [hres]; exact hfind1, ?_, ?_, ?_⟩
  · rw [hres]
    show countDocs (st.carts ++ [(cart_id, [])]) cart_id = 1
    rw [countDocs_append_single_self, countDocs_eq_zero st.carts cart_id h]
  · intro n
    rw [hres]
    apply Function.iterate_fixed
    show (get_cart catalog { st with carts := st.carts ++ [(cart_id, [])] } cart_id).2 = _
    rw [hsecond]
  · rw [hres]
    show (get_cart catalog { st with carts := st.carts ++ [(cart_id, [])] } cart_id).1 = _
    rw [hsecond]

/-- Witness for C6: a fresh cart identity against the empty store. -/
theorem get_or_create_fresh_witness :
    (get_cart demoCatalog emptyStore "c9").1.items = [] ∧
    findDoc (get_cart demoCatalog emptyStore "c9").2.carts "c9" = some [] ∧
    countDocs (get_cart demoCatalog emptyStore "c9").2.carts "c9" = 1 ∧
    (∀ n : Nat, (getStep demoCatalog "c9")^[n] (get_cart demoCatalog emptyStore "c9").2 =
      (get_cart demoCatalog emptyStore "c9").2) ∧
    (get_cart demoCatalog (get_cart demoCatalog emptyStore "c9").2 "c9").1 =
      (get_cart demoCatalog emptyStore "c9").1 :=
  get_or_create_fresh demoCatalog emptyStore "c9" (by rfl)

/-! ## Idempotence of removal (claim C7) -/

theorem updateItems_of_no_match (slug sz : String) (qty : Option Int) (remove : Bool)
    (items : List LineItem) (h : ∀ i ∈ items, sameKey slug sz i = false) :
    updateItems slug sz qty remove items = items := by
  induction items with
  | nil => rfl
  | cons i rest ih =>
    have hi : sameKey slug sz i = false := h i (List.mem_cons_self i rest)
    unfold updateItems
    rw [if_neg (by simp [hi])]
    rw [ih (fun j hj => h j (List.mem_cons_of_mem i hj))]

theorem updateItems_remove_true_clears (slug sz : String) (qty : Option Int)
    (items : List LineItem) :
    ∀ b ∈ updateItems slug sz qty true items, sameKey slug sz b = false := by
  induction items with
  | nil => intro b hb; simp [updateItems] at hb
  | cons i rest ih =>
    intro b hb
    unfold updateItems at hb
    by_cases hk : sameKey slug sz i = true
    · rw [if_pos hk, if_pos (by simp [dropCond])] at hb
      exact ih b hb
    · rw [if_neg hk] at hb
      rcases List.mem_cons.mp hb with hb | hb
      · rw [hb]
        exact Bool.not_eq_true _ ▸ eq_false_of_ne_true hk
      · exact ih b hb

/-- C7: applying `updateItem` with `remove = true` twice (a raised
`HTTPException` performing no write) yields the same store — and hence the
same cart item sequence — as applying it once. -/
theorem update_remove_idempotent (st : Store) (cart_id slug sz : String)
    (qty : Option Int) :
    updateStep (updateStep st cart_id slug sz qty true) cart_id slug sz qty true =
      updateStep st cart_id slug sz qty true := by
  cases h : findDoc st.carts cart_id with
  | none =>
    have hstep : updateStep st cart_id slug sz qty true = st := by
      simp only [updateStep, update_cart, h]
    rw [hstep, hstep]
  | some items =>
    have hstep : updateStep st cart_id slug sz qty true =
        { st with carts := setDoc st.carts cart_id (updateItems slug sz qty true items) } := by
      simp only [updateStep, update_cart, h]
    rw [hstep]
    have hfind1 : findDoc (setDoc st.carts cart_id (updateItems slug sz qty true items))
        cart_id = some (updateItems slug sz qty true items) :=
      findDoc_setDoc_self st.carts cart_id _
    have hid : updateItems slug sz qty true (updateItems slug sz qty true items) =
        updateItems slug sz qty true items :=
      updateItems_of_no_match slug sz qty true _
        (updateItems_remove_true_clears slug sz qty items)
    simp only [updateStep, update_cart, hfind1]
    rw [hid]
    rw [setDoc_eq_self _ _ _ hfind1]

/-! ## OTP verification (claims C8 and C10) -/

/-- C8: `verifyCode` fails with `Unauthorized` exactly when the pending OTP
record for the phone, looked up as supplied, does not hold exactly the
supplied code (no record, or a mismatching code); on a match it returns the
freshly generated identity and appends exactly one session record for it —
the OTP record (and everything else in the store) is left untouched. -/
theorem verify_code_characterization (st : Store) (phone code newId : String) :
    (verify_otp st phone code newId = .error ⟨401, "Invalid code"⟩ ↔
      findDoc st.otp phone ≠ some code) ∧
    (findDoc st.otp phone = some code →
      verify_otp st phone code newId =
        .ok (newId, { st with sessions := st.sessions ++ [(newId, phone)] })) := by
  cases hf : findDoc st.otp phone with
  | none =>
    constructor
    · constructor
      · intro _ hc
        exact Option.noConfusion hc
      · intro _
        simp only [verify_otp, hf]
    · intro hc
      exact absurd hc (by simp)
  | some stored =>
    by_cases hc : code = stored
    · subst hc
      constructor
      · constructor
        · intro herr
          simp [verify_otp, hf] at herr
        · intro hne
          exact absurd rfl hne
      · intro _
        simp [verify_otp, hf]
    · constructor
      · constructor
        · intro _ heq
          exact hc (Option.some.inj heq).symm
        · intro _
          simp only [verify_otp, hf, if_neg hc]
      · intro heq
        exact absurd (Option.some.inj heq).symm hc

/-! ## The view never writes back (claim C9) -/

/-- C9: presenting a cart that already exists performs no store write — the
returned store is the input store, so the persisted cart document is
unchanged and the enrichment fields and subtotal live only in the view. -/
theorem present_existing_cart_no_write (catalog : List Product) (st : Store)
    (cart_id : String) (items : List LineItem)
    (h : findDoc st.carts cart_id = some items) :
    (get_cart catalog st cart_id).2 = st := by
  simp only [get_cart, h]

/-- Witness for C9: presenting the populated demo cart leaves the store
untouched. -/
theorem present_existing_cart_no_write_witness :
    (get_cart demoCatalog mixedStore "c1").2 = mixedStore :=
  present_existing_cart_no_write demoCatalog mixedStore "c1"
    [⟨"crest-tee", "S", 3⟩, ⟨"ghost", "M", 2⟩] (by rfl)

/-- C10: `requestCode` keys the OTP record by the trimmed phone while
`verifyCode` looks the phone up verbatim; so for a phone with surrounding
whitespace (in a store whose OTP records never carry an untrimmed key, which
is all reachable stores), requesting a code and then verifying with the
identical untrimmed string fails `Unauthorized` for every code, while
verifying with the trimmed phone — equal, character for character, to the
stored key — succeeds with the stored demo code. -/
theorem otp_trim_mismatch (st : Store) (phone newId : String)
    (h1 : pyStrip phone ≠ phone) (h2 : pyStrip phone ≠ "")
    (h3 : ∀ kv ∈ st.otp, kv.1 ≠ phone) :
    ∃ st1, request_otp st phone = .ok st1 ∧
      (∀ code newId2, verify_otp st1 phone code newId2 =
        .error ⟨401, "Invalid code"⟩) ∧
      verify_otp st1 (pyStrip phone) "123456" newId =
        .ok (newId, { st1 with sessions := st1.sessions ++ [(newId, pyStrip phone)] }) := by
  refine ⟨{ st with otp := setDoc st.otp (pyStrip phone) "123456" }, ?_, ?_, ?_⟩
  · simp only [request_otp, if_neg h2]
  · intro code newId2
    have hnone : findDoc (setDoc st.otp (pyStrip phone) "123456") phone = none := by
      rw [findDoc_eq_none_iff]
      intro kv hkv
      rcases mem_setDoc st.otp (pyStrip phone) "123456" kv hkv with hm | he
      · exact h3 kv hm
      · rw [he]
        exact h1
    simp only [verify_otp, hnone]
  · have hsome : findDoc (setDoc st.otp (pyStrip phone) "123456") (pyStrip phone) =
        some "123456" := findDoc_setDoc_self st.otp (pyStrip phone) "123456"
    simp [verify_otp, hsome]

/-- Witness for C10: the literal phone `" +15551230000"` (leading space)
against the empty store. -/
theorem otp_trim_mismatch_witness :
    ∃ st1, request_otp emptyStore " +15551230000" = .ok st1 ∧
      (∀ code newId2, verify_otp st1 " +15551230000" code newId2 =
        .error ⟨401, "Invalid code"⟩) ∧
      verify_otp st1 (pyStrip " +15551230000") "123456" "sid" =
        .ok ("sid", { st1 with
          sessions := st1.sessions ++ [("sid", pyStrip " +15551230000")] }) :=
  otp_trim_mismatch emptyStore " +15551230000" "sid" (by decide) (by decide)
    (by decide)

end DropZone
